import Mathlib

/-!
Shallow embedding of the math-game repository (src/game.py, src/utils.py,
src/models.py, src/config.py) for verifying its specification.

Conventions of the embedding:
* Wall-clock instants (`datetime.utcnow()`) are modelled as natural numbers
  passed explicitly into each operation as `now`.
* Randomness (`random.choice`, `random.randint`) is modelled by threading an
  oracle `List Nat` of raw draws; `randint lo hi` maps the next draw into
  `[lo, hi]` by reduction modulo the size of the range, so every value of the
  oracle yields an in-range draw and every in-range draw is reachable.
* The `active_sessions` dict is modelled as a function `Nat → Option GameSession`.
* The storage collaborator `db` (not part of the session-manager core) is
  modelled from the spec: saved results are an append-only list, users a list
  with get-or-create semantics.
* Python string parsing `int(s.strip())` is modelled by trimming Unicode
  whitespace from both ends and parsing an optional sign followed by ASCII
  digits.  (Python's `int` additionally accepts digit-group underscores and
  non-ASCII digits; no property here turns on those.)
-/

namespace MathGame

/-- models.py `User`. `created_at` is the creation instant. -/
structure User where
  telegram_id : Nat
  username : Option String
  first_name : Option String
  last_name : Option String
  created_at : Nat
deriving Repr, DecidableEq

/-- models.py `Attempt`. -/
structure Attempt where
  question_text : String
  expected_answer : Int
  user_answer : Option Int
  correct : Bool
  answered_at : Nat
deriving Repr, DecidableEq

/-- models.py `GameResult`. -/
structure GameResult where
  user_telegram_id : Nat
  score : Nat
  total_questions : Nat
  correct_answers : Nat
  started_at : Nat
  finished_at : Option Nat
  attempts : List Attempt
deriving Repr, DecidableEq

/-- game.py `GameSession` (the asyncio timer task is not part of the state). -/
structure GameSession where
  user_id : Nat
  current_question : String
  expected_answer : Int
  score : Nat
  total_questions : Nat
  correct_answers : Nat
  end_time : Nat
  game_result : GameResult
deriving Repr, DecidableEq

/-- config.py `Config.GAME_DURATION_SECONDS`. -/
def GAME_DURATION_SECONDS : Nat := 60

/-- The full mutable state: `GameManager.active_sessions` plus the storage
collaborator's two collections (modelled from the spec, §6). -/
structure PyState where
  sessions : Nat → Option GameSession
  saved : List GameResult
  users : List User

/-- `random.randint(lo, hi)`: the next oracle draw reduced into `[lo, hi]`
(an exhausted oracle yields `lo`). -/
def randint (lo hi : Nat) (rng : List Nat) : Nat × List Nat :=
  match rng with
  | [] => (lo, [])
  | n :: rest => (lo + n % (hi + 1 - lo), rest)

/-- One branch of game.py `generate_question`, selected by the index that
`random.choice(['+', '-', '*', '/'])` drew. -/
def genProblem (op : Nat) (rng : List Nat) : (String × Int) × List Nat :=
  if op = 0 then
    -- Addition: a + b <= 99
    let p := randint 0 99 rng
    let a := p.1
    let q := randint 0 (99 - a) p.2
    let b := q.1
    ((toString a ++ " + " ++ toString b, (a : Int) + (b : Int)), q.2)
  else if op = 1 then
    -- Subtraction: a >= b, result >= 0
    let p := randint 0 99 rng
    let a := p.1
    let q := randint 0 a p.2
    let b := q.1
    ((toString a ++ " - " ++ toString b, (a : Int) - (b : Int)), q.2)
  else if op = 2 then
    -- Multiplication: a * b <= 99
    let max_a := 11
    let p := randint 0 max_a rng
    let a := p.1
    if a = 0 then
      let q := randint 0 99 p.2
      let b := q.1
      ((toString a ++ " × " ++ toString b, (a : Int) * (b : Int)), q.2)
    else
      let max_b := 99 / a
      let q := randint 0 (min max_b 9) p.2
      let b := q.1
      ((toString a ++ " × " ++ toString b, (a : Int) * (b : Int)), q.2)
  else
    -- Division: a / b with a = b * k, k in 0..11, a <= 99
    let p := randint 1 9 rng
    let b := p.1
    let max_k := min 11 (99 / b)
    let q := randint 0 max_k p.2
    let k := q.1
    let a := b * k
    ((toString a ++ " ÷ " ++ toString b, (k : Int)), q.2)

/-- game.py `GameManager.generate_question`: draw the operation, then the
operands. -/
def generate_question (rng : List Nat) : (String × Int) × List Nat :=
  let c := randint 0 3 rng
  genProblem c.1 c.2

/-- `str.strip()`: drop Unicode whitespace from both ends (right first, then
left; the two orders agree). -/
def pyStrip (l : List Char) : List Char :=
  (((l.reverse).dropWhile Char.isWhitespace).reverse).dropWhile Char.isWhitespace

/-- Value of an ASCII digit string read left to right. -/
def digitsVal (l : List Char) : Nat :=
  l.foldl (fun acc c => 10 * acc + (c.toNat - 48)) 0

/-- Parse a nonempty run of ASCII digits. -/
def parseDigits (l : List Char) : Option Nat :=
  if l ≠ [] ∧ l.all Char.isDigit then some (digitsVal l) else none

/-- `int(user_answer.strip())` as a total function: `none` models the
`ValueError` branch. -/
def pyParseInt (s : String) : Option Int :=
  match pyStrip s.data with
  | '+' :: rest => (parseDigits rest).map (fun n => (n : Int))
  | '-' :: rest => (parseDigits rest).map (fun n => -(n : Int))
  | l => (parseDigits l).map (fun n => (n : Int))

/-- Modelled from the spec: `db.get_or_create_user` (db.py is not in src/).
Idempotent get-or-create — the first call with a new id persists a new
profile, later calls return the existing profile unchanged. -/
def get_or_create_user (users : List User) (id : Nat)
    (username first_name last_name : Option String) (now : Nat) :
    User × List User :=
  match users.find? (fun u => u.telegram_id = id) with
  | some u => (u, users)
  | none =>
    let u : User := ⟨id, username, first_name, last_name, now⟩
    (u, users ++ [u])

/-- Modelled from the spec: `db.save_game_result` (db.py is not in src/).
Append-only; never updates or deletes prior results. -/
def save_game_result (saved : List GameResult) (gr : GameResult) : List GameResult :=
  saved ++ [gr]

/-- game.py `GameManager.start_game`.  Returns the new session (`none` when a
session is already active) together with the updated state.  The asyncio
timer registration has no effect on the state modelled here. -/
def start_game (st : PyState) (now : Nat) (rng : List Nat) (user_id : Nat)
    (username first_name last_name : Option String) :
    Option GameSession × PyState :=
  if (st.sessions user_id).isSome then
    (none, st)
  else
    let gu := get_or_create_user st.users user_id username first_name last_name now
    let game_result : GameResult :=
      { user_telegram_id := user_id, score := 0, total_questions := 0,
        correct_answers := 0, started_at := now, finished_at := none,
        attempts := [] }
    let qa := generate_question rng
    let end_time := now + GAME_DURATION_SECONDS
    let session : GameSession :=
      { user_id := user_id, current_question := qa.1.1,
        expected_answer := qa.1.2, score := 0, total_questions := 1,
        correct_answers := 0, end_time := end_time,
        game_result := game_result }
    (some session,
      { sessions := fun u => if u = user_id then some session else st.sessions u,
        saved := st.saved,
        users := gu.2 })

/-- game.py `GameManager.end_game`: copy the live counters into the bound
`GameResult`, stamp `finished_at`, persist it, delete the session. -/
def end_game (st : PyState) (now : Nat) (user_id : Nat) :
    Option GameResult × PyState :=
  match st.sessions user_id with
  | none => (none, st)
  | some session =>
    let gr : GameResult :=
      { session.game_result with
        score := session.score,
        total_questions := session.total_questions,
        correct_answers := session.correct_answers,
        finished_at := some now }
    (some gr,
      { sessions := fun u => if u = user_id then none else st.sessions u,
        saved := save_game_result st.saved gr,
        users := st.users })

/-- The Russian prompt returned when no session is active. -/
def msgNoGame : String := "У тебя нет активной игры. Нажми «Начать игру» 🦄"

/-- The Russian prompt returned when the input is not an integer. -/
def msgNotNumber : String :=
  "Ой, похоже это не число 🫣 — пришли, пожалуйста, целый ответ (например 42)."

/-- game.py `GameManager.process_answer`: returns the tuple
`(is_valid_number, error_message, next_question, was_correct)` and the updated
state. -/
def process_answer (st : PyState) (now : Nat) (rng : List Nat) (user_id : Nat)
    (user_answer : String) :
    (Bool × Option String × Option String × Option Bool) × PyState :=
  match st.sessions user_id with
  | none => ((false, some msgNoGame, none, none), st)
  | some session =>
    if session.end_time ≤ now then
      -- Time expired: finalize the game.
      ((false, none, none, none), (end_game st now user_id).2)
    else
      let current_question := session.current_question
      let current_expected_answer := session.expected_answer
      match pyParseInt user_answer with
      | none => ((false, some msgNotNumber, none, none), st)
      | some answer_int =>
        let was_correct : Bool := answer_int = current_expected_answer
        let attempt : Attempt :=
          { question_text := current_question,
            expected_answer := current_expected_answer,
            user_answer := some answer_int,
            correct := was_correct,
            answered_at := now }
        let gr :=
          { session.game_result with
            attempts := session.game_result.attempts ++ [attempt] }
        let qa := generate_question rng
        let session2 : GameSession :=
          { session with
            game_result := gr,
            total_questions := session.total_questions + 1,
            correct_answers :=
              session.correct_answers + (if was_correct then 1 else 0),
            score := session.score + (if was_correct then 1 else 0),
            current_question := qa.1.1,
            expected_answer := qa.1.2 }
        ((true, none, some qa.1.1, some was_correct),
          { st with
            sessions := fun u => if u = user_id then some session2 else st.sessions u })

/-- game.py `GameManager.get_session`: read-only lookup. -/
def get_session (st : PyState) (user_id : Nat) : Option GameSession :=
  st.sessions user_id

/-- game.py `GameManager.force_end_game`. -/
def force_end_game (st : PyState) (now : Nat) (user_id : Nat) : PyState :=
  if (st.sessions user_id).isSome then (end_game st now user_id).2 else st

/-- Python truthiness for the `or` chains in utils.py: an `Option String`
falls through when it is `None` or the empty string. -/
def pyOrStr (a : Option String) (b : String) : String :=
  match a with
  | some s => if s = "" then b else s
  | none => b

/-- utils.py `get_leaderboard`, name resolution:
`(user.username if user else None) or (user.first_name if user else None) or "Без имени"`. -/
def resolveName (users : List User) (uid : Nat) : String :=
  match users.find? (fun u => u.telegram_id = uid) with
  | some u => pyOrStr u.username (pyOrStr u.first_name "Без имени")
  | none => "Без имени"

/-- One step of the `user_stats` accumulation loop in utils.py
`get_leaderboard`: a Python dict in insertion order, entries
`(user_id, best_score, total_games)`. -/
def updateStats (acc : List (Nat × Nat × Nat)) (r : GameResult) :
    List (Nat × Nat × Nat) :=
  if acc.any (fun p => p.1 = r.user_telegram_id) then
    acc.map (fun p =>
      if p.1 = r.user_telegram_id then (p.1, max p.2.1 r.score, p.2.2 + 1) else p)
  else
    acc ++ [(r.user_telegram_id, max 0 r.score, 1)]

/-- The `user_stats` dict built by utils.py `get_leaderboard`. -/
def user_stats (results : List GameResult) : List (Nat × Nat × Nat) :=
  results.foldl updateStats []

/-- The sort order of utils.py `get_leaderboard`:
`key=lambda x: (-x[1], -x[2])`, i.e. best score descending, then games
descending. -/
def lbLe (x y : String × Nat × Nat) : Prop :=
  y.2.1 < x.2.1 ∨ (x.2.1 = y.2.1 ∧ y.2.2 ≤ x.2.2)

instance : DecidableRel lbLe := fun x y => by
  unfold lbLe; infer_instance

instance : IsTotal (String × Nat × Nat) lbLe :=
  ⟨fun x y => by unfold lbLe; omega⟩

instance : IsTrans (String × Nat × Nat) lbLe :=
  ⟨fun x y z hxy hyz => by unfold lbLe at *; omega⟩

/-- utils.py `get_leaderboard`: aggregate per-user stats, resolve display
names, sort stably by `(best_score desc, total_games desc)`, truncate to
`limit`.  Python's stable `list.sort` is modelled by `insertionSort`, which
also keeps elements of equal key in their original order. -/
def get_leaderboard (results : List GameResult) (users : List User)
    (limit : Nat) : List (String × Nat × Nat) :=
  let leaderboard :=
    (user_stats results).map (fun p => (resolveName users p.1, p.2.1, p.2.2))
  (leaderboard.insertionSort lbLe).take limit

/-- Run `process_answer` once per step; each step supplies the wall-clock
instant, the random oracle for the next problem, and the raw answer text. -/
def runAnswers (uid : Nat) (st : PyState) :
    List (Nat × List Nat × String) → PyState
  | [] => st
  | (now, rng, raw) :: rest =>
      runAnswers uid (process_answer st now rng uid raw).2 rest

/-- Every step of the run is an in-time, correctly-answered submission: a live
session exists, the deadline has not passed, and the raw text parses to the
session's stored expected answer. -/
def AllCorrect (uid : Nat) (st : PyState) :
    List (Nat × List Nat × String) → Prop
  | [] => True
  | (now, rng, raw) :: rest =>
      (∃ s, st.sessions uid = some s ∧ now < s.end_time ∧
        pyParseInt raw = some s.expected_answer) ∧
      AllCorrect uid (process_answer st now rng uid raw).2 rest

/-- The per-session invariant of spec §3, read with integer arithmetic:
`correctAnswers ≤ totalQuestions - 1 ≤ len(attempts)`. -/
def SessionInv (s : GameSession) : Prop :=
  (s.correct_answers : Int) ≤ (s.total_questions : Int) - 1 ∧
  (s.total_questions : Int) - 1 ≤ s.game_result.attempts.length

/-- Every live session of the store satisfies the session invariant. -/
def StoreInv (st : PyState) : Prop :=
  ∀ uid s, st.sessions uid = some s → SessionInv s

theorem randint_bounds (lo hi : Nat) (rng : List Nat) (h : lo ≤ hi) :
    lo ≤ (randint lo hi rng).1 ∧ (randint lo hi rng).1 ≤ hi := by
  cases rng with
  | nil => simp [randint, h]
  | cons n rest =>
    simp only [randint]
    have hpos : 0 < hi + 1 - lo := by omega
    have := Nat.mod_lt n hpos
    omega

theorem genProblem_spec (op : Nat) (rng : List Nat) :
    (0 ≤ (genProblem op rng).1.2 ∧ (genProblem op rng).1.2 ≤ 99) ∧
    ((∃ a b : Nat, (genProblem op rng).1.1 = toString a ++ " + " ++ toString b ∧
        (genProblem op rng).1.2 = (a : Int) + b ∧ a + b ≤ 99) ∨
     (∃ a b : Nat, (genProblem op rng).1.1 = toString a ++ " - " ++ toString b ∧
        (genProblem op rng).1.2 = (a : Int) - b ∧ b ≤ a ∧ a ≤ 99) ∨
     (∃ a b : Nat, (genProblem op rng).1.1 = toString a ++ " × " ++ toString b ∧
        (genProblem op rng).1.2 = (a : Int) * b ∧ a ≤ 11 ∧
        ((a = 0 ∧ b ≤ 99) ∨ (a ≠ 0 ∧ b ≤ min (99 / a) 9)) ∧ a * b ≤ 99) ∨
     (∃ b k : Nat, (genProblem op rng).1.1 = toString (b * k) ++ " ÷ " ++ toString b ∧
        (genProblem op rng).1.2 = (k : Int) ∧ 1 ≤ b ∧ b ≤ 9 ∧ k ≤ min 11 (99 / b))) := by
  by_cases h0 : op = 0
  · obtain ⟨ha0, ha⟩ := randint_bounds 0 99 rng (by omega)
    obtain ⟨hb0, hb⟩ :=
      randint_bounds 0 (99 - (randint 0 99 rng).1) (randint 0 99 rng).2 (by omega)
    simp only [genProblem, h0, if_true]
    constructor
    · constructor <;> omega
    · exact Or.inl ⟨_, _, rfl, rfl, by omega⟩
  · by_cases h1 : op = 1
    · obtain ⟨ha0, ha⟩ := randint_bounds 0 99 rng (by omega)
      obtain ⟨hb0, hb⟩ :=
        randint_bounds 0 (randint 0 99 rng).1 (randint 0 99 rng).2 (by omega)
      simp only [genProblem, h0, h1, if_false, if_true]
      constructor
      · constructor <;> (push_cast; omega)
      · exact Or.inr (Or.inl ⟨_, _, rfl, rfl, hb, ha⟩)
    · by_cases h2 : op = 2
      · obtain ⟨ha0, ha⟩ := randint_bounds 0 11 rng (by omega)
        by_cases haz : (randint 0 11 rng).1 = 0
        · obtain ⟨hb0, hb⟩ := randint_bounds 0 99 (randint 0 11 rng).2 (Nat.zero_le _)
          simp only [genProblem]
          rw [if_neg h0, if_neg h1, if_pos h2, if_pos haz]
          constructor
          · constructor
            · positivity
            · rw [haz]; simp
          · refine Or.inr (Or.inr (Or.inl ⟨_, _, rfl, rfl, by omega, ?_, ?_⟩))
            · exact Or.inl ⟨haz, hb⟩
            · rw [haz]; simp
        · obtain ⟨hb0, hb⟩ :=
            randint_bounds 0 (min (99 / (randint 0 11 rng).1) 9)
              (randint 0 11 rng).2 (Nat.zero_le _)
          have hmul : (randint 0 11 rng).1 *
              (randint 0 (min (99 / (randint 0 11 rng).1) 9) (randint 0 11 rng).2).1 ≤ 99 :=
            calc (randint 0 11 rng).1 *
                (randint 0 (min (99 / (randint 0 11 rng).1) 9) (randint 0 11 rng).2).1
                ≤ (randint 0 11 rng).1 * (99 / (randint 0 11 rng).1) :=
                  Nat.mul_le_mul (le_refl _) (hb.trans (min_le_left _ _))
              _ = (99 / (randint 0 11 rng).1) * (randint 0 11 rng).1 := Nat.mul_comm _ _
              _ ≤ 99 := Nat.div_mul_le_self 99 (randint 0 11 rng).1
          simp only [genProblem]
          rw [if_neg h0, if_neg h1, if_pos h2, if_neg haz]
          dsimp only
          constructor
          · constructor
            · positivity
            · exact_mod_cast hmul
          · refine Or.inr (Or.inr (Or.inl ⟨_, _, rfl, rfl, ha, Or.inr ⟨haz, hb⟩, hmul⟩))
      · obtain ⟨hbl, hbu⟩ := randint_bounds 1 9 rng (by omega)
        obtain ⟨hk0, hk⟩ :=
          randint_bounds 0 (min 11 (99 / (randint 1 9 rng).1))
            (randint 1 9 rng).2 (Nat.zero_le _)
        have hk11 :
            (randint 0 (min 11 (99 / (randint 1 9 rng).1)) (randint 1 9 rng).2).1 ≤ 11 :=
          hk.trans (min_le_left _ _)
        simp only [genProblem]
        rw [if_neg h0, if_neg h1, if_neg h2]
        dsimp only
        constructor
        · constructor
          · positivity
          · exact_mod_cast hk11.trans (by omega)
        · exact Or.inr (Or.inr (Or.inr ⟨_, _, rfl, rfl, hbl, hbu, hk⟩))

/-- C2: every generated problem, under every choice of random draws, has an
answer in `[0, 99]` and falls into one of the four operation shapes with the
stated operand ranges; for division the dividend is exactly
`divisor × answer`. -/
theorem C2_generator_ranges (rng : List Nat) :
    (0 ≤ (generate_question rng).1.2 ∧ (generate_question rng).1.2 ≤ 99) ∧
    ((∃ a b : Nat, (generate_question rng).1.1 = toString a ++ " + " ++ toString b ∧
        (generate_question rng).1.2 = (a : Int) + b ∧ a + b ≤ 99) ∨
     (∃ a b : Nat, (generate_question rng).1.1 = toString a ++ " - " ++ toString b ∧
        (generate_question rng).1.2 = (a : Int) - b ∧ b ≤ a ∧ a ≤ 99) ∨
     (∃ a b : Nat, (generate_question rng).1.1 = toString a ++ " × " ++ toString b ∧
        (generate_question rng).1.2 = (a : Int) * b ∧ a ≤ 11 ∧
        ((a = 0 ∧ b ≤ 99) ∨ (a ≠ 0 ∧ b ≤ min (99 / a) 9)) ∧ a * b ≤ 99) ∨
     (∃ b k : Nat, (generate_question rng).1.1 = toString (b * k) ++ " ÷ " ++ toString b ∧
        (generate_question rng).1.2 = (k : Int) ∧ 1 ≤ b ∧ b ≤ 9 ∧ k ≤ min 11 (99 / b))) := by
  simpa only [generate_question] using
    genProblem_spec (randint 0 3 rng).1 (randint 0 3 rng).2

/-- A concrete live session used to instantiate the claim theorems. -/
def sampleSession : GameSession :=
  { user_id := 1, current_question := "1 + 2", expected_answer := 3,
    score := 0, total_questions := 1, correct_answers := 0, end_time := 60,
    game_result :=
      { user_telegram_id := 1, score := 0, total_questions := 0,
        correct_answers := 0, started_at := 0, finished_at := none,
        attempts := [] } }

/-- A concrete store holding `sampleSession` for user 1. -/
def sampleState : PyState :=
  { sessions := fun u => if u = 1 then some sampleSession else none,
    saved := [], users := [] }

/-- C4: on a live, unexpired session, unparsable input yields the
invalid-input reply and the state is returned entirely unchanged — no
counter moves, no attempt is recorded, no next problem is issued. -/
theorem C4_invalid_input_unchanged (st : PyState) (now : Nat) (rng : List Nat)
    (uid : Nat) (raw : String) (s : GameSession)
    (hs : st.sessions uid = some s) (htime : now < s.end_time)
    (hp : pyParseInt raw = none) :
    process_answer st now rng uid raw = ((false, some msgNotNumber, none, none), st) := by
  simp only [process_answer, hs]
  rw [if_neg (by omega)]
  simp [hp]

/-- C4 witness at a concrete session and the input "abc". -/
theorem C4_witness :
    process_answer sampleState 10 [] 1 "abc" =
      ((false, some msgNotNumber, none, none), sampleState) :=
  C4_invalid_input_unchanged sampleState 10 [] 1 "abc" sampleSession rfl
    (by decide) (by decide)

/-- C7: a second `start_game` for a user with a live session returns `none`
and leaves the whole state — the first session included — untouched. -/
theorem C7_second_start_rejected (st : PyState) (now : Nat) (rng : List Nat)
    (uid : Nat) (username first_name last_name : Option String)
    (s : GameSession) (hs : st.sessions uid = some s) :
    start_game st now rng uid username first_name last_name = (none, st) := by
  simp [start_game, hs]

/-- C7 witness at the concrete store. -/
theorem C7_witness :
    start_game sampleState 5 [] 1 (some "x") none none = (none, sampleState) :=
  C7_second_start_rejected sampleState 5 [] 1 (some "x") none none
    sampleSession rfl

/-- C10: expiry is checked before parsing — once the deadline has passed,
every raw input (parsable or not) takes the expired branch, which finalizes
via the `end_game` path; no invalid-input reply is possible. -/
theorem C10_expiry_checked_before_parsing (st : PyState) (now : Nat)
    (rng : List Nat) (uid : Nat) (raw : String) (s : GameSession)
    (hs : st.sessions uid = some s) (ht : s.end_time ≤ now) :
    process_answer st now rng uid raw =
      ((false, none, none, none), (end_game st now uid).2) := by
  simp only [process_answer, hs]
  rw [if_pos ht]

/-- C10 witness: after the deadline, even the unparsable input "oops"
finalizes the session. -/
theorem C10_witness :
    process_answer sampleState 60 [] 1 "oops" =
      ((false, none, none, none), (end_game sampleState 60 1).2) :=
  C10_expiry_checked_before_parsing sampleState 60 [] 1 "oops" sampleSession
    rfl (by decide)

/-- C5: at or past `end_time`, `process_answer` returns the expired outcome
with no next problem, the finalized `GameResult` (live counters copied,
`finished_at` stamped) is persisted exactly once, and the session is gone:
`get_session` afterwards returns `none`. -/
theorem C5_expired_finalizes (st : PyState) (now : Nat) (rng : List Nat)
    (uid : Nat) (raw : String) (s : GameSession)
    (hs : st.sessions uid = some s) (ht : s.end_time ≤ now) :
    (process_answer st now rng uid raw).1 = (false, none, none, none) ∧
    get_session (process_answer st now rng uid raw).2 uid = none ∧
    (process_answer st now rng uid raw).2.saved =
      st.saved ++ [{ s.game_result with
        score := s.score, total_questions := s.total_questions,
        correct_answers := s.correct_answers, finished_at := some now }] := by
  simp only [process_answer, hs]
  rw [if_pos ht]
  refine ⟨rfl, ?_, ?_⟩
  · simp [get_session, end_game, hs]
  · simp [end_game, hs, save_game_result]

/-- C5 witness at the concrete store. -/
theorem C5_witness :
    (process_answer sampleState 61 [] 1 "3").1 = (false, none, none, none) ∧
    get_session (process_answer sampleState 61 [] 1 "3").2 1 = none ∧
    (process_answer sampleState 61 [] 1 "3").2.saved =
      [] ++ [{ sampleSession.game_result with
        score := 0, total_questions := 1, correct_answers := 0,
        finished_at := some 61 }] :=
  C5_expired_finalizes sampleState 61 [] 1 "3" sampleSession rfl (by decide)

/-- C6: the first `end_game` returns the finalized result — live counters
copied, `finished_at = now` — persists it exactly once and removes the
session; a second `end_game` for the same user returns `none` and changes
nothing. -/
theorem C6_finalize_exactly_once (st : PyState) (now now2 : Nat) (uid : Nat)
    (s : GameSession) (hs : st.sessions uid = some s) :
    ∃ gr, (end_game st now uid).1 = some gr ∧
      gr.score = s.score ∧ gr.total_questions = s.total_questions ∧
      gr.correct_answers = s.correct_answers ∧ gr.finished_at = some now ∧
      (end_game st now uid).2.saved = st.saved ++ [gr] ∧
      (end_game st now uid).2.sessions uid = none ∧
      end_game (end_game st now uid).2 now2 uid = (none, (end_game st now uid).2) := by
  refine ⟨{ s.game_result with
      score := s.score, total_questions := s.total_questions,
      correct_answers := s.correct_answers, finished_at := some now },
    by simp only [end_game, hs], rfl, rfl, rfl, rfl, ?_, ?_, ?_⟩
  · simp [end_game, hs, save_game_result]
  · simp [end_game, hs]
  · have hnone : (end_game st now uid).2.sessions uid = none := by
      simp [end_game, hs]
    set st2 := (end_game st now uid).2 with h2
    simp [end_game, hnone]

/-- C6 witness at the concrete store. -/
theorem C6_witness :
    ∃ gr, (end_game sampleState 7 1).1 = some gr ∧
      gr.score = sampleSession.score ∧
      gr.total_questions = sampleSession.total_questions ∧
      gr.correct_answers = sampleSession.correct_answers ∧
      gr.finished_at = some 7 ∧
      (end_game sampleState 7 1).2.saved = sampleState.saved ++ [gr] ∧
      (end_game sampleState 7 1).2.sessions 1 = none ∧
      end_game (end_game sampleState 7 1).2 9 1 = (none, (end_game sampleState 7 1).2) :=
  C6_finalize_exactly_once sampleState 7 9 1 sampleSession rfl

/-- Characterization of the accepted branch of `process_answer`: a live,
unexpired session and parsable input produce exactly the documented updates. -/
theorem process_answer_accepted (st : PyState) (now : Nat) (rng : List Nat)
    (uid : Nat) (raw : String) (s : GameSession) (v : Int)
    (hs : st.sessions uid = some s) (htime : now < s.end_time)
    (hp : pyParseInt raw = some v) :
    process_answer st now rng uid raw =
      ((true, none, some (generate_question rng).1.1,
          some (decide (v = s.expected_answer))),
        { st with sessions := fun u => if u = uid then some (
            { s with
              game_result := { s.game_result with
                attempts := s.game_result.attempts ++
                  [{ question_text := s.current_question,
                     expected_answer := s.expected_answer,
                     user_answer := some v,
                     correct := decide (v = s.expected_answer),
                     answered_at := now }] },
              total_questions := s.total_questions + 1,
              correct_answers :=
                s.correct_answers + (if v = s.expected_answer then 1 else 0),
              score := s.score + (if v = s.expected_answer then 1 else 0),
              current_question := (generate_question rng).1.1,
              expected_answer := (generate_question rng).1.2 })
          else st.sessions u }) := by
  simp only [process_answer, hs]
  rw [if_neg (by omega)]
  simp [hp]

/-- After a run of in-time, correctly-answered submissions, the live session's
score and correct-answer count have each grown by the number of steps. -/
theorem runAnswers_streak (uid : Nat) (steps : List (Nat × List Nat × String)) :
    ∀ (st : PyState) (s : GameSession), st.sessions uid = some s →
      AllCorrect uid st steps →
      ∃ s', (runAnswers uid st steps).sessions uid = some s' ∧
        s'.score = s.score + steps.length ∧
        s'.correct_answers = s.correct_answers + steps.length := by
  induction steps with
  | nil => exact fun st s hs _ => ⟨s, hs, by simp, by simp⟩
  | cons step rest ih =>
    obtain ⟨now, rng, raw⟩ := step
    intro st s hs hac
    obtain ⟨⟨s0, hs0, htime, hp⟩, hrest⟩ := hac
    rw [hs] at hs0
    injection hs0 with he
    subst he
    have hstep := process_answer_accepted st now rng uid raw s s.expected_answer hs htime hp
    obtain ⟨s2, h2, h2s, h2c⟩ : ∃ s2,
        (process_answer st now rng uid raw).2.sessions uid = some s2 ∧
        s2.score = s.score + 1 ∧ s2.correct_answers = s.correct_answers + 1 := by
      rw [hstep]
      refine ⟨{ s with
        game_result := { s.game_result with
          attempts := s.game_result.attempts ++
            [{ question_text := s.current_question,
               expected_answer := s.expected_answer,
               user_answer := some s.expected_answer,
               correct := decide (s.expected_answer = s.expected_answer),
               answered_at := now }] },
        total_questions := s.total_questions + 1,
        correct_answers :=
          s.correct_answers + (if s.expected_answer = s.expected_answer then 1 else 0),
        score := s.score + (if s.expected_answer = s.expected_answer then 1 else 0),
        current_question := (generate_question rng).1.1,
        expected_answer := (generate_question rng).1.2 }, by simp, by simp, by simp⟩
    rw [runAnswers]
    obtain ⟨s', hlook, hscore, hcorrect⟩ := ih _ s2 h2 hrest
    exact ⟨s', hlook, by simp only [List.length_cons]; omega,
      by simp only [List.length_cons]; omega⟩

/-- C1: on a live, unexpired session, parsable input is accepted and performs
exactly the documented updates — one `Attempt` built from the session's stored
problem and stored expected answer, `total_questions + 1`, `correct_answers`
and `score` each `+ 1` iff the parsed integer equals the stored answer, and a
freshly generated problem installed; consequently a streak of `N` in-time
correct answers on a fresh session yields `score = N` and
`correct_answers = N`. -/
theorem C1_accepted_updates_and_streak :
    (∀ (st : PyState) (now : Nat) (rng : List Nat) (uid : Nat) (raw : String)
        (s : GameSession) (v : Int),
      st.sessions uid = some s → now < s.end_time → pyParseInt raw = some v →
      process_answer st now rng uid raw =
        ((true, none, some (generate_question rng).1.1,
            some (decide (v = s.expected_answer))),
          { st with sessions := fun u => if u = uid then some (
              { s with
                game_result := { s.game_result with
                  attempts := s.game_result.attempts ++
                    [{ question_text := s.current_question,
                       expected_answer := s.expected_answer,
                       user_answer := some v,
                       correct := decide (v = s.expected_answer),
                       answered_at := now }] },
                total_questions := s.total_questions + 1,
                correct_answers :=
                  s.correct_answers + (if v = s.expected_answer then 1 else 0),
                score := s.score + (if v = s.expected_answer then 1 else 0),
                current_question := (generate_question rng).1.1,
                expected_answer := (generate_question rng).1.2 })
            else st.sessions u })) ∧
    (∀ (uid : Nat) (steps : List (Nat × List Nat × String)) (st : PyState)
        (s : GameSession),
      st.sessions uid = some s → s.score = 0 → s.correct_answers = 0 →
      AllCorrect uid st steps →
      ∃ s', (runAnswers uid st steps).sessions uid = some s' ∧
        s'.score = steps.length ∧ s'.correct_answers = steps.length) := by
  constructor
  · exact fun st now rng uid raw s v hs ht hp =>
      process_answer_accepted st now rng uid raw s v hs ht hp
  · intro uid steps st s hs hsc hca hac
    obtain ⟨s', hlook, hscore, hcorrect⟩ := runAnswers_streak uid steps st s hs hac
    exact ⟨s', hlook, by omega, by omega⟩

/-- C1 witness: one concrete accepted call, and a two-step all-correct run on
the fresh concrete session ends with score 2 and two correct answers. -/
theorem C1_witness :
    ((process_answer sampleState 10 [2] 1 " 3 ").1 =
      (true, none, some (generate_question [2]).1.1, some true)) ∧
    (∃ s', (runAnswers 1 sampleState [(10, [2], "3"), (20, [], " 0 ")]).sessions 1 = some s' ∧
      s'.score = 2 ∧ s'.correct_answers = 2) := by
  have h := C1_accepted_updates_and_streak
  constructor
  · rw [h.1 sampleState 10 [2] 1 " 3 " sampleSession 3 rfl (by decide) (by decide)]
    decide
  · exact h.2 1 [(10, [2], "3"), (20, [], " 0 ")] sampleState sampleSession rfl rfl rfl
      ⟨⟨sampleSession, rfl, by decide, by decide⟩,
        ⟨(process_answer sampleState 10 [2] 1 "3").2.sessions 1 |>.get (by decide), by decide, by decide, by decide⟩,
        trivial⟩

/-- C3: the invariant `correctAnswers ≤ totalQuestions - 1 ≤ len(attempts)`
(integer arithmetic) is established by `start_game` — the new session has
score 0, one outstanding question, no correct answers, no attempts — and is
preserved by `start_game` and by every outcome of `process_answer`. -/
theorem C3_invariant_established_and_preserved :
    (∀ (st : PyState) (now : Nat) (rng : List Nat) (uid : Nat)
        (un fn ln : Option String) (sess : GameSession) (st' : PyState),
      start_game st now rng uid un fn ln = (some sess, st') →
      sess.score = 0 ∧ sess.total_questions = 1 ∧ sess.correct_answers = 0 ∧
        sess.game_result.attempts = [] ∧ SessionInv sess) ∧
    (∀ (st : PyState) (now : Nat) (rng : List Nat) (uid : Nat)
        (un fn ln : Option String),
      StoreInv st → StoreInv (start_game st now rng uid un fn ln).2) ∧
    (∀ (st : PyState) (now : Nat) (rng : List Nat) (uid : Nat) (raw : String),
      StoreInv st → StoreInv (process_answer st now rng uid raw).2) := by
  refine ⟨?_, ?_, ?_⟩
  · intro st now rng uid un fn ln sess st' hstart
    by_cases h : (st.sessions uid).isSome = true
    · simp [start_game, h] at hstart
    · simp only [start_game, h, Bool.false_eq_true, if_false] at hstart
      injection hstart with h1 h2
      injection h1 with h1
      subst h1
      simp [SessionInv]
  · intro st now rng uid un fn ln hInv uid' s' hlook
    by_cases h : (st.sessions uid).isSome = true
    · simp only [start_game, h, if_true] at hlook
      exact hInv _ _ hlook
    · simp only [start_game, h, Bool.false_eq_true, if_false] at hlook
      by_cases he : uid' = uid
      · simp only [he, if_pos rfl] at hlook
        obtain rfl : _ = s' := Option.some.inj hlook
        simp [SessionInv]
      · simp only [he, if_neg, ite_false] at hlook
        exact hInv _ _ hlook
  · intro st now rng uid raw hInv uid' s' hlook
    cases hsx : st.sessions uid with
    | none =>
      simp only [process_answer, hsx] at hlook
      exact hInv _ _ hlook
    | some s =>
      by_cases ht : s.end_time ≤ now
      · simp only [process_answer, hsx, if_pos ht] at hlook
        simp only [end_game, hsx] at hlook
        by_cases he : uid' = uid
        · simp [he] at hlook
        · simp only [he, ite_false] at hlook
          exact hInv _ _ hlook
      · cases hp : pyParseInt raw with
        | none =>
          simp only [process_answer, hsx, if_neg ht, hp] at hlook
          exact hInv _ _ hlook
        | some v =>
          rw [process_answer_accepted st now rng uid raw s v hsx (by omega) hp]
            at hlook
          dsimp only at hlook
          by_cases he : uid' = uid
          · simp only [he, if_pos rfl] at hlook
            obtain rfl : _ = s' := Option.some.inj hlook
            obtain ⟨h1, h2⟩ := hInv uid s hsx
            unfold SessionInv
            dsimp only
            simp only [List.length_append, List.length_cons, List.length_nil]
            split_ifs <;> push_cast <;> omega
          · simp only [he, ite_false] at hlook
            exact hInv _ _ hlook

/-- C3 witness: the concrete store satisfies the invariant and still does
after a concrete `process_answer`. -/
theorem C3_witness : StoreInv (process_answer sampleState 10 [] 1 "3").2 :=
  C3_invariant_established_and_preserved.2.2 sampleState 10 [] 1 "3"
    (fun uid s h => by
      simp only [sampleState] at h
      by_cases he : uid = 1
      · rw [if_pos he] at h
        obtain rfl := Option.some.inj h
        simp [SessionInv, sampleSession]
      · rw [if_neg he] at h
        exact absurd h (by simp))

theorem dropWhile_ws_nil (w : List Char) (hw : ∀ c ∈ w, c.isWhitespace) :
    w.dropWhile Char.isWhitespace = [] := by
  induction w with
  | nil => rfl
  | cons c cs ih =>
    rw [List.dropWhile_cons, if_pos (hw c (List.mem_cons_self c cs))]
    exact ih fun d hd => hw d (List.mem_cons_of_mem c hd)

/-- Surrounding whitespace does not change the result of stripping. -/
theorem pyStrip_pad (w1 w2 s : List Char)
    (h1 : ∀ c ∈ w1, c.isWhitespace) (h2 : ∀ c ∈ w2, c.isWhitespace) :
    pyStrip (w1 ++ s ++ w2) = pyStrip s := by
  have h1r : ∀ c ∈ w1.reverse, c.isWhitespace = true :=
    fun c hc => h1 c (List.mem_reverse.mp hc)
  have h2r : ∀ c ∈ w2.reverse, c.isWhitespace = true :=
    fun c hc => h2 c (List.mem_reverse.mp hc)
  unfold pyStrip
  rw [List.reverse_append, List.reverse_append,
    List.dropWhile_append_of_pos h2r, List.dropWhile_append]
  by_cases hc : ((s.reverse).dropWhile Char.isWhitespace).isEmpty = true
  · rw [if_pos hc, dropWhile_ws_nil w1.reverse h1r]
    rw [List.isEmpty_iff] at hc
    rw [hc]
  · rw [if_neg hc, List.reverse_append, List.reverse_reverse,
      List.dropWhile_append_of_pos (fun c hcm => h1 c hcm)]

/-- Surrounding whitespace does not change integer parsing. -/
theorem pyParseInt_pad (w1 w2 raw : String)
    (h1 : ∀ c ∈ w1.data, c.isWhitespace) (h2 : ∀ c ∈ w2.data, c.isWhitespace) :
    pyParseInt (w1 ++ raw ++ w2) = pyParseInt raw := by
  unfold pyParseInt
  rw [String.data_append, String.data_append, pyStrip_pad _ _ _ h1 h2]

/-- C9: on a live, unexpired session, wrapping the raw input in leading and
trailing whitespace changes neither the outcome nor the resulting state;
in particular `" 42 "` behaves exactly like `"42"`. -/
theorem C9_whitespace_insensitive (st : PyState) (now : Nat) (rng : List Nat)
    (uid : Nat) (w1 w2 raw : String) (s : GameSession)
    (hs : st.sessions uid = some s) (ht : now < s.end_time)
    (h1 : ∀ c ∈ w1.data, c.isWhitespace) (h2 : ∀ c ∈ w2.data, c.isWhitespace) :
    process_answer st now rng uid (w1 ++ raw ++ w2) =
      process_answer st now rng uid raw := by
  have hnot : ¬ s.end_time ≤ now := by omega
  simp only [process_answer, hs, if_neg hnot]
  rw [pyParseInt_pad w1 w2 raw h1 h2]

/-- C9 witness: `" 42 "` and `"42"` give the same outcome and state on the
concrete session. -/
theorem C9_witness :
    process_answer sampleState 10 [] 1 (" " ++ "42" ++ " ") =
      process_answer sampleState 10 [] 1 "42" :=
  C9_whitespace_insensitive sampleState 10 [] 1 " " " " "42" sampleSession rfl
    (by decide) (by decide) (by decide)

/-- Spec-side definition (C8): a user's best score is the maximum of that
user's result scores (0 when the user has none). -/
def bestScoreSpec (results : List GameResult) (uid : Nat) : Nat :=
  ((results.filter (fun x => x.user_telegram_id = uid)).map GameResult.score).foldl max 0

/-- Spec-side definition (C8): games played is the count of that user's
results. -/
def gamesPlayedSpec (results : List GameResult) (uid : Nat) : Nat :=
  (results.filter (fun x => x.user_telegram_id = uid)).length

theorem bestScoreSpec_append (results : List GameResult) (r : GameResult)
    (uid : Nat) :
    bestScoreSpec (results ++ [r]) uid =
      if r.user_telegram_id = uid then max (bestScoreSpec results uid) r.score
      else bestScoreSpec results uid := by
  unfold bestScoreSpec
  rw [List.filter_append, List.map_append, List.foldl_append]
  by_cases h : r.user_telegram_id = uid <;> simp [h]

theorem gamesPlayedSpec_append (results : List GameResult) (r : GameResult)
    (uid : Nat) :
    gamesPlayedSpec (results ++ [r]) uid =
      gamesPlayedSpec results uid + (if r.user_telegram_id = uid then 1 else 0) := by
  unfold gamesPlayedSpec
  rw [List.filter_append, List.length_append]
  by_cases h : r.user_telegram_id = uid <;> simp [h]

/-- Loop invariant for the `user_stats` accumulation: every accumulated entry
carries exactly the spec-side best score and game count over the processed
prefix, absent users have count 0, and every entry has at least one game. -/
def StatsInv (processed : List GameResult) (acc : List (Nat × Nat × Nat)) : Prop :=
  (∀ p ∈ acc, p.2.1 = bestScoreSpec processed p.1 ∧
    p.2.2 = gamesPlayedSpec processed p.1) ∧
  (∀ uid : Nat, (∀ p ∈ acc, p.1 ≠ uid) → gamesPlayedSpec processed uid = 0) ∧
  (∀ p ∈ acc, 1 ≤ p.2.2)

theorem statsInv_step (processed : List GameResult)
    (acc : List (Nat × Nat × Nat)) (r : GameResult) (h : StatsInv processed acc) :
    StatsInv (processed ++ [r]) (updateStats acc r) := by
  obtain ⟨hval, hzero, hpos⟩ := h
  unfold updateStats
  by_cases hmem : acc.any (fun p => p.1 = r.user_telegram_id) = true
  · rw [if_pos hmem]
    obtain ⟨q0, hq0, hq0k⟩ := List.any_eq_true.mp hmem
    have hq0k : q0.1 = r.user_telegram_id := of_decide_eq_true hq0k
    have keyimg : ∀ p : Nat × Nat × Nat,
        (if p.1 = r.user_telegram_id then (p.1, max p.2.1 r.score, p.2.2 + 1)
          else p).1 = p.1 := by
      intro p
      by_cases hpk : p.1 = r.user_telegram_id <;> simp [hpk]
    refine ⟨?_, ?_, ?_⟩
    · intro p hp
      obtain ⟨q, hq, rfl⟩ := List.mem_map.mp hp
      obtain ⟨hb, hg⟩ := hval q hq
      by_cases hqk : q.1 = r.user_telegram_id
      · rw [if_pos hqk]
        refine ⟨?_, ?_⟩
        · show max q.2.1 r.score = bestScoreSpec (processed ++ [r]) q.1
          rw [bestScoreSpec_append, if_pos hqk.symm, hb]
        · show q.2.2 + 1 = gamesPlayedSpec (processed ++ [r]) q.1
          rw [gamesPlayedSpec_append, if_pos hqk.symm, hg]
      · rw [if_neg hqk]
        refine ⟨?_, ?_⟩
        · rw [bestScoreSpec_append, if_neg (fun hh => hqk hh.symm), hb]
        · rw [gamesPlayedSpec_append, if_neg (fun hh => hqk hh.symm), hg]
          omega
    · intro uid hnone
      have huid : ∀ p ∈ acc, p.1 ≠ uid := by
        intro p hp hput
        have himg := hnone _ (List.mem_map_of_mem _ hp)
        rw [keyimg p] at himg
        exact himg hput
      have hru : r.user_telegram_id ≠ uid := by
        have himg := hnone _ (List.mem_map_of_mem _ hq0)
        rw [keyimg q0] at himg
        exact hq0k ▸ himg
      rw [gamesPlayedSpec_append, if_neg hru, hzero uid huid]
    · intro p hp
      obtain ⟨q, hq, rfl⟩ := List.mem_map.mp hp
      by_cases hqk : q.1 = r.user_telegram_id
      · rw [if_pos hqk]
        exact Nat.le_add_left 1 _
      · rw [if_neg hqk]
        exact hpos q hq
  · rw [if_neg hmem]
    have hnot : ∀ q ∈ acc, q.1 ≠ r.user_telegram_id := by
      intro q hq hcontra
      exact hmem (List.any_eq_true.mpr ⟨q, hq, decide_eq_true hcontra⟩)
    have hz : gamesPlayedSpec processed r.user_telegram_id = 0 := hzero _ hnot
    have hfilter :
        processed.filter (fun x => x.user_telegram_id = r.user_telegram_id) = [] :=
      List.length_eq_zero.mp hz
    have hbz : bestScoreSpec processed r.user_telegram_id = 0 := by
      unfold bestScoreSpec
      rw [hfilter]
      rfl
    refine ⟨?_, ?_, ?_⟩
    · intro p hp
      rcases List.mem_append.mp hp with hpa | hpr
      · obtain ⟨hb, hg⟩ := hval p hpa
        have hpk : p.1 ≠ r.user_telegram_id := hnot p hpa
        refine ⟨?_, ?_⟩
        · rw [bestScoreSpec_append, if_neg (fun hh => hpk hh.symm), hb]
        · rw [gamesPlayedSpec_append, if_neg (fun hh => hpk hh.symm), hg]
          omega
      · have hpe : p = (r.user_telegram_id, max 0 r.score, 1) := by simpa using hpr
        subst hpe
        refine ⟨?_, ?_⟩
        · show max 0 r.score = bestScoreSpec (processed ++ [r]) r.user_telegram_id
          rw [bestScoreSpec_append, if_pos rfl, hbz]
        · show 1 = gamesPlayedSpec (processed ++ [r]) r.user_telegram_id
          rw [gamesPlayedSpec_append, if_pos rfl, hz]
    · intro uid hnone
      have hru : r.user_telegram_id ≠ uid := by
        have := hnone (r.user_telegram_id, max 0 r.score, 1) (by simp)
        simpa using this
      have huid : ∀ p ∈ acc, p.1 ≠ uid :=
        fun p hp => hnone p (List.mem_append_left _ hp)
      rw [gamesPlayedSpec_append, if_neg hru, hzero uid huid]
    · intro p hp
      rcases List.mem_append.mp hp with hpa | hpr
      · exact hpos p hpa
      · have hpe : p = (r.user_telegram_id, max 0 r.score, 1) := by simpa using hpr
        subst hpe
        exact le_refl 1

theorem statsInv_foldl :
    ∀ (results processed : List GameResult) (acc : List (Nat × Nat × Nat)),
      StatsInv processed acc →
      StatsInv (processed ++ results) (results.foldl updateStats acc)
  | [], processed, acc, h => by simpa using h
  | r :: rs, processed, acc, h => by
    have h2 := statsInv_foldl rs (processed ++ [r]) (updateStats acc r)
      (statsInv_step processed acc r h)
    rw [List.foldl_cons]
    simpa [List.append_assoc] using h2

/-- Every entry of the `user_stats` dict is a user occurring in the results,
carrying exactly that user's spec-side best score and game count. -/
theorem user_stats_spec (results : List GameResult) :
    ∀ p ∈ user_stats results,
      (∃ r ∈ results, r.user_telegram_id = p.1) ∧
      p.2.1 = bestScoreSpec results p.1 ∧ p.2.2 = gamesPlayedSpec results p.1 := by
  have base : StatsInv [] [] :=
    ⟨by simp, fun uid _ => rfl, by simp⟩
  have h := statsInv_foldl results [] [] base
  rw [List.nil_append] at h
  intro p hp
  obtain ⟨hval, hzero, hpos⟩ := h
  obtain ⟨hb, hg⟩ := hval p hp
  refine ⟨?_, hb, hg⟩
  have h1 : 1 ≤ gamesPlayedSpec results p.1 := hg ▸ hpos p hp
  have hne : results.filter (fun x => x.user_telegram_id = p.1) ≠ [] := by
    intro hc
    unfold gamesPlayedSpec at h1
    rw [hc] at h1
    exact absurd h1 (by simp)
  obtain ⟨r, hr⟩ := List.exists_mem_of_ne_nil _ hne
  have hrm := List.mem_filter.mp hr
  exact ⟨r, hrm.1, of_decide_eq_true hrm.2⟩

/-- Concrete leaderboard scenario: user A with scores 3 and 7, user B with
score 5. -/
def resA3 : GameResult :=
  { user_telegram_id := 1, score := 3, total_questions := 5,
    correct_answers := 3, started_at := 0, finished_at := some 60, attempts := [] }

/-- Second result of user A, score 7. -/
def resA7 : GameResult :=
  { user_telegram_id := 1, score := 7, total_questions := 8,
    correct_answers := 7, started_at := 100, finished_at := some 160, attempts := [] }

/-- Single result of user B, score 5. -/
def resB5 : GameResult :=
  { user_telegram_id := 2, score := 5, total_questions := 6,
    correct_answers := 5, started_at := 0, finished_at := some 60, attempts := [] }

/-- Profile of user A. -/
def userA : User :=
  { telegram_id := 1, username := some "userA", first_name := none,
    last_name := none, created_at := 0 }

/-- Profile of user B. -/
def userB : User :=
  { telegram_id := 2, username := some "userB", first_name := none,
    last_name := none, created_at := 0 }

/-- C8: the leaderboard is sorted by (best score desc, games desc) with a
stable sort, truncated to `limit`, and every row is some occurring user's
resolved display name with exactly that user's best score (max) and game
count; the concrete scenario {A: [3,7], B: [5]} yields
[A(7,2), B(5,1)]. -/
theorem C8_leaderboard_spec :
    (∀ (results : List GameResult) (users : List User) (limit : Nat),
      List.Sorted lbLe (get_leaderboard results users limit) ∧
      (get_leaderboard results users limit).length ≤ limit ∧
      ∀ e ∈ get_leaderboard results users limit, ∃ uid,
        (∃ r ∈ results, r.user_telegram_id = uid) ∧
        e = (resolveName users uid, bestScoreSpec results uid,
          gamesPlayedSpec results uid)) ∧
    get_leaderboard [resA3, resA7, resB5] [userA, userB] 10 =
      [("userA", 7, 2), ("userB", 5, 1)] := by
  constructor
  · intro results users limit
    refine ⟨?_, ?_, ?_⟩
    · exact List.Pairwise.sublist (List.take_sublist _ _)
        (List.sorted_insertionSort lbLe _)
    · simp only [get_leaderboard, List.length_take]
      omega
    · intro e he
      have he1 := (List.take_sublist _ _).subset he
      have he2 := (List.perm_insertionSort lbLe _).subset he1
      obtain ⟨p, hp, rfl⟩ := List.mem_map.mp he2
      obtain ⟨hex, hb, hg⟩ := user_stats_spec results p hp
      exact ⟨p.1, hex, by rw [hb, hg]⟩
  · decide

/-- C8 witness: the first row of the concrete leaderboard really is an
occurring user with the spec-side aggregates. -/
theorem C8_witness :
    ∃ uid, (∃ r ∈ [resA3, resA7, resB5], r.user_telegram_id = uid) ∧
      (("userA", 7, 2) : String × Nat × Nat) =
        (resolveName [userA, userB] uid, bestScoreSpec [resA3, resA7, resB5] uid,
          gamesPlayedSpec [resA3, resA7, resB5] uid) :=
  (C8_leaderboard_spec.1 [resA3, resA7, resB5] [userA, userB] 10).2.2
    ("userA", 7, 2) (by decide)

end MathGame
